import Mathlib

/-!
# Verification of `src/common/src/docker.ts`

A shallow embedding of the docker build/run/push wrapper, and proofs of the
specification's claims about it.

Conventions of the embedding:
* JavaScript strings are Lean `String`s; `undefined` string values are
  modelled by `Option String` with `none` for `undefined`.
* `String.prototype.split(sep)` with a one-character separator is embedded
  by `jsSplit` below (structural recursion over the character list, so
  that it evaluates inside the kernel).
* Exceptions are modelled with `Except String`, carrying the error message.
* External collaborators (the config accessors, `fs.existsSync`,
  `path.join`, `getAbsolutePath`, `substituteValues`, `process.cwd`) are
  out of scope per the spec and appear as abstract fields of an `Env`
  record; the process runner `exec` is, as in the source, an explicit
  argument of each orchestrator.
-/

/-- The single-quote character U+0027, used in the source's error and
diagnostic messages. -/
def squote : String := String.mk [Char.ofNat 39]

/-- JS `string.split(sep)` for a one-character separator, at the level of
character lists: splits at every occurrence of `sep`, keeping empty
pieces, and yields `[[]]` on the empty input, exactly as in JavaScript. -/
def splitListSep (sep : Char) : List Char → List (List Char)
  | [] => [[]]
  | c :: cs =>
    let r := splitListSep sep cs
    if c = sep then [] :: r else (c :: r.headD []) :: r.tail

/-- JS `s.split(sep)` for a one-character separator `sep`. -/
def jsSplit (s : String) (sep : Char) : List String :=
  (splitListSep sep s.data).map String.mk

/-- The record produced by `parseMount` (interface `DockerMount` in the
source).  The source declares the fields as `string`, but assigns
`parts[1]`, which is `undefined` when the segment has no `=`; hence
`Option String`, with `none` for `undefined`.  The parser starts from
`some ""` in every field (the source initialises `let type = ''` etc.). -/
@[ext]
structure DockerMount where
  type : Option String
  source : Option String
  target : Option String
deriving DecidableEq, Repr

instance {ε α : Type} [DecidableEq ε] [DecidableEq α] : DecidableEq (Except ε α) := fun x y =>
  match x, y with
  | .ok a, .ok b =>
    if h : a = b then isTrue (h ▸ rfl) else isFalse fun hc => h (by injection hc)
  | .ok _, .error _ => isFalse fun hc => Except.noConfusion hc
  | .error _, .ok _ => isFalse fun hc => Except.noConfusion hc
  | .error e, .error f =>
    if h : e = f then isTrue (h ▸ rfl) else isFalse fun hc => h (by injection hc)

/-- One iteration of the `for (const option of options)` loop body of
`parseMount`: `option.split('=')`, switch on `parts[0]`, assign
`parts[1]` to the matching field, ignore `readonly`/`ro`, and throw
`Unhandled mount option '<key>'` on any other key. -/
def applyOption (mount : DockerMount) (option : String) : Except String DockerMount :=
  let parts := jsSplit option '='
  let key := parts.headD ""
  if key = "type" then .ok { mount with type := parts[1]? }
  else if key = "src" ∨ key = "source" then .ok { mount with source := parts[1]? }
  else if key = "dst" ∨ key = "destination" ∨ key = "target" then .ok { mount with target := parts[1]? }
  else if key = "readonly" ∨ key = "ro" then .ok mount
  else .error ("Unhandled mount option " ++ squote ++ key ++ squote)

/-- The `for` loop of `parseMount`, processing the comma-split segments
left to right, short-circuiting on the first thrown error. -/
def parseMountLoop (mount : DockerMount) : List String → Except String DockerMount
  | [] => .ok mount
  | option :: rest =>
    match applyOption mount option with
    | .error e => .error e
    | .ok m => parseMountLoop m rest

/-- `parseMount` from the source: split the mount string on `,`, fold the
switch over the segments starting from all-empty fields. -/
def parseMount (mountString : String) : Except String DockerMount :=
  parseMountLoop ⟨some "", some "", some ""⟩ (jsSplit mountString ',')

/-- The three value-bearing fields of a `DockerMount`. -/
inductive MountField
  | type
  | source
  | target
deriving DecidableEq

/-- The field of the record that a given mount-option key assigns, `none`
for keys that assign nothing (`readonly`, `ro`, and unrecognized keys),
mirroring the `switch` of `parseMount`. -/
def fieldOfKey (key : String) : Option MountField :=
  if key = "type" then some .type
  else if key = "src" ∨ key = "source" then some .source
  else if key = "dst" ∨ key = "destination" ∨ key = "target" then some .target
  else none

/-- `parts[0]` of a segment: the text before the first `=`. -/
def mountKey (option : String) : String := (jsSplit option '=').headD ""

/-- `parts[1]` of a segment: the text between the first and second `=`,
`none` (JS `undefined`) when the segment has no `=`. -/
def optionValue (option : String) : Option String := (jsSplit option '=')[1]?

/-- The field a whole segment assigns. -/
def valueField (option : String) : Option MountField := fieldOfKey (mountKey option)

/-- The segment's key is one the `switch` of `parseMount` handles. -/
def RecognizedKey (option : String) : Prop :=
  mountKey option ∈ ["type", "src", "source", "dst", "destination", "target", "readonly", "ro"]

instance : DecidablePred RecognizedKey := fun o => by
  unfold RecognizedKey
  infer_instance

/-- Overwrite one field of a `DockerMount`. -/
def setField : MountField → Option String → DockerMount → DockerMount
  | .type, v, m => { m with type := v }
  | .source, v, m => { m with source := v }
  | .target, v, m => { m with target := v }

/-- Read one field of a `DockerMount`. -/
def getField : MountField → DockerMount → Option String
  | .type, m => m.type
  | .source, m => m.source
  | .target, m => m.target

/-- The pure state update a recognized segment performs. -/
def optionUpdate (option : String) (m : DockerMount) : DockerMount :=
  match valueField option with
  | none => m
  | some f => setField f (optionValue option) m

/-- Two mount segments never assign the same value-bearing field (the
claims' notion of "no repeated (aliased) key"). -/
def DistinctFields (a b : String) : Prop :=
  valueField a = none ∨ valueField b = none ∨ valueField a ≠ valueField b

instance : DecidableRel DistinctFields := fun a b => by
  unfold DistinctFields
  infer_instance

/-- The comma-separated catenation of `key=value` segments (the claims'
"mount string consisting of comma-separated key=value segments"). -/
def mountStringOf : List (String × String) → String
  | [] => ""
  | [p] => p.1 ++ "=" ++ p.2
  | p :: rest => p.1 ++ "=" ++ p.2 ++ "," ++ mountStringOf rest

/-- The pure state change performed by a list of well-formed `key=value`
assignments, later entries overwriting earlier ones. -/
def assignAll (pairs : List (String × String)) (m : DockerMount) : DockerMount :=
  List.foldl
    (fun acc p =>
      match fieldOfKey p.1 with
      | some f => setField f (some p.2) acc
      | none => acc)
    m pairs

/-- The value the field `f` ends up with: the value of the last pair whose
key assigns `f`, or the default `d` when no pair does. -/
def lastValueD (f : MountField) (d : Option String) (pairs : List (String × String)) :
    Option String :=
  List.foldl (fun acc p => if fieldOfKey p.1 = some f then some p.2 else acc) d pairs

/-- The value the field `f` ends up with after parsing: the value of the
last segment whose key assigns `f` (the unique such segment when no key is
repeated), or the empty string when no segment assigns `f`. -/
def lastValue (f : MountField) (pairs : List (String × String)) : Option String :=
  lastValueD f (some "") pairs

/-- The `build` section of a devcontainer config, restricted to the field
`docker.ts` reads directly (`devcontainerConfig.build?.args`, a key→value
object iterated in insertion order, hence an association list).  The
`dockerfile` and `context` entries are only reached through the config
collaborator's accessors, which the spec declares external. -/
structure BuildSection where
  args : Option (List (String × String))

/-- The devcontainer configuration, restricted to the fields `docker.ts`
reads directly; everything else is reached through the external config
collaborator. -/
structure DevcontainerConfig where
  build : Option BuildSection
  mounts : Option (List String)
  runArgs : Option (List String)

/-- The process runner collaborator (`ExecFunction` in the source): a
command name and an argument vector, giving back the exit code. -/
abbrev ExecFunction := String → List String → Int

/-- The external collaborators the spec puts out of scope: config
loading and accessors, placeholder substitution, path resolution, the
current working directory, and the filesystem existence check
(`fs.existsSync`, which receives `mount.source`, possibly `undefined`). -/
structure Env where
  loadFromFile : String → DevcontainerConfig
  getDockerfile : DevcontainerConfig → Option String
  getContext : DevcontainerConfig → Option String
  getWorkspaceFolder : DevcontainerConfig → String → String
  getRemoteUser : DevcontainerConfig → String
  substituteValues : String → String
  getAbsolutePath : String → String → String
  existsSync : Option String → Bool
  cwd : String
  pathJoin2 : String → String → String
  pathJoin3 : String → String → String → String

/-- One invocation of the process runner. -/
structure ExecCall where
  command : String
  args : List String
deriving DecidableEq

/-- What an orchestrator call did: the runner invocations it made, the
diagnostics it printed, and its result (`.error` models a thrown
exception, carrying the message). -/
structure RunOutcome where
  calls : List ExecCall
  logs : List String
  result : Except String Unit
deriving DecidableEq

/-- `isDockerBuildXInstalled` from the source: run
`docker buildx --help` and report whether its exit code is 0.  The first
component records the runner invocations made. -/
def isDockerBuildXInstalled (exec : ExecFunction) : List ExecCall × Bool :=
  let exitCode := exec "docker" ["buildx", "--help"]
  ([⟨"docker", ["buildx", "--help"]⟩], exitCode == 0)

/-- The message of the error `buildImage` throws when the config carries
no Dockerfile. -/
def buildNoDockerfileMsg : String :=
  "dockerfile not set in devcontainer.json - devcontainer-build-run currently only supports Dockerfile-based dev containers"

/-- The outcome of `buildImage` when the config carries no Dockerfile:
nothing executed, the descriptive error thrown. -/
def noDockerfileOutcome : RunOutcome :=
  ⟨[], [], .error buildNoDockerfileMsg⟩

/-- `buildImage` from the source.  JS `!configDockerfile` is true both for
`undefined` and for the empty string, hence the two error patterns. -/
def buildImage (env : Env) (exec : ExecFunction)
    (imageName checkoutPath subFolder : String) : RunOutcome :=
  let folder := env.pathJoin2 checkoutPath subFolder
  let devcontainerJsonPath := env.pathJoin2 folder ".devcontainer/devcontainer.json"
  let devcontainerConfig := env.loadFromFile devcontainerJsonPath
  match env.getDockerfile devcontainerConfig with
  | none => noDockerfileOutcome
  | some "" => noDockerfileOutcome
  | some configDockerfile =>
    let dockerfilePath := env.pathJoin3 folder ".devcontainer" configDockerfile
    let configContext := (env.getContext devcontainerConfig).getD ""
    let contextPath := env.pathJoin3 folder ".devcontainer" configContext
    let buildArgs :=
      match devcontainerConfig.build with
      | some b => b.args.getD []
      | none => []
    let args :=
      ["buildx", "build", "--tag", imageName ++ ":latest", "--cache-from",
        "type=registry,ref=" ++ imageName ++ ":latest", "--cache-to", "type=inline",
        "--output=type=docker"]
      ++ (buildArgs.flatMap fun p => ["--build-arg", p.1 ++ "=" ++ env.substituteValues p.2])
      ++ ["-f", dockerfilePath, contextPath]
    let exitCode := exec "docker" args
    ⟨[⟨"docker", args⟩], [],
      if exitCode ≠ 0 then .error ("build failed with " ++ toString exitCode) else .ok ()⟩

/-- The accumulated effect of the mount `forEach` in `runContainer`:
the `--mount` argument pairs pushed, the skip diagnostics printed, and
the first `parseMount` exception, if one was thrown. -/
structure MountScan where
  margs : List String
  logs : List String
  err : Option String
deriving DecidableEq

/-- The `forEach` over the (already substituted) config mount strings in
`runContainer`: parse each, skip a `bind` mount whose source does not
exist (printing a diagnostic), otherwise push `--mount` and the raw
string; a `parseMount` exception stops the loop, keeping the diagnostics
already printed. -/
def scanMounts (env : Env) : List String → MountScan
  | [] => ⟨[], [], none⟩
  | m :: rest =>
    match parseMount m with
    | .error e => ⟨[], [], some e⟩
    | .ok mount =>
      if mount.type = some "bind" ∧ env.existsSync mount.source = false then
        let s := scanMounts env rest
        ⟨s.margs, ("Skipping mount as source does not exist: " ++ squote ++ m ++ squote) :: s.logs,
          s.err⟩
      else
        let s := scanMounts env rest
        ⟨"--mount" :: m :: s.margs, s.logs, s.err⟩

/-- `runContainer` from the source.  The trailing `mounts` parameter is
declared (as in the source) and never read. -/
def runContainer (env : Env) (exec : ExecFunction)
    (imageName checkoutPath subFolder command : String)
    (envs : Option (List String)) (mounts : Option (List String)) : RunOutcome :=
  let checkoutPathAbsolute := env.getAbsolutePath checkoutPath env.cwd
  let folder := env.pathJoin2 checkoutPathAbsolute subFolder
  let devcontainerJsonPath := env.pathJoin2 folder ".devcontainer/devcontainer.json"
  let devcontainerConfig := env.loadFromFile devcontainerJsonPath
  let workspaceFolder := env.getWorkspaceFolder devcontainerConfig folder
  let remoteUser := env.getRemoteUser devcontainerConfig
  let scan := scanMounts env ((devcontainerConfig.mounts.getD []).map env.substituteValues)
  match scan.err with
  | some e => ⟨[], scan.logs, .error e⟩
  | none =>
    let args :=
      ["run", "--mount",
        "type=bind,src=" ++ checkoutPathAbsolute ++ ",dst=" ++ workspaceFolder]
      ++ scan.margs
      ++ ["--workdir", workspaceFolder, "--user", remoteUser]
      ++ ((devcontainerConfig.runArgs.getD []).map env.substituteValues)
      ++ ((envs.getD []).flatMap fun e => ["--env", e])
      ++ [imageName ++ ":latest", "bash", "-c", "sudo chown -R $(whoami) . && " ++ command]
    let exitCode := exec "docker" args
    ⟨[⟨"docker", args⟩], scan.logs,
      if exitCode ≠ 0 then .error ("run failed with " ++ toString exitCode) else .ok ()⟩

/-- `pushImage` from the source. -/
def pushImage (exec : ExecFunction) (imageName : String) : RunOutcome :=
  let args := ["push", imageName ++ ":latest"]
  let exitCode := exec "docker" args
  ⟨[⟨"docker", args⟩], [],
    if exitCode ≠ 0 then .error ("push failed with " ++ toString exitCode) else .ok ()⟩

/-- Spec-side restatement for the run orchestrator's mount policy (§4.3):
a config mount is dropped when it parses to type `bind` and its source
fails the existence check. -/
def skipsMount (env : Env) (m : String) : Bool :=
  match parseMount m with
  | .error _ => false
  | .ok mount =>
    if mount.type = some "bind" ∧ env.existsSync mount.source = false then true else false

/-- Spec-side restatement: the argument-vector contribution of one config
mount string — nothing when skipped, else `--mount` and the raw string. -/
def mountContribution (env : Env) (m : String) : List String :=
  if skipsMount env m then [] else ["--mount", m]

/-- Spec-side restatement: the diagnostic a skipped mount prints. -/
def skipLog (env : Env) (m : String) : Option String :=
  if skipsMount env m then
    some ("Skipping mount as source does not exist: " ++ squote ++ m ++ squote)
  else none

/-- The configuration `buildImage` loads:
`<checkoutPath>/<subFolder>/.devcontainer/devcontainer.json`. -/
def buildConfigOf (env : Env) (checkoutPath subFolder : String) : DevcontainerConfig :=
  env.loadFromFile
    (env.pathJoin2 (env.pathJoin2 checkoutPath subFolder) ".devcontainer/devcontainer.json")

/-- The configuration `runContainer` loads: as `buildConfigOf`, but from
the absolutised checkout path. -/
def runConfigOf (env : Env) (checkoutPath subFolder : String) : DevcontainerConfig :=
  env.loadFromFile
    (env.pathJoin2 (env.pathJoin2 (env.getAbsolutePath checkoutPath env.cwd) subFolder)
      ".devcontainer/devcontainer.json")

/-- The config-declared mount strings after placeholder substitution. -/
def substMounts (env : Env) (cfg : DevcontainerConfig) : List String :=
  (cfg.mounts.getD []).map env.substituteValues

/-- `devcontainerConfig.build?.args` as the iteration of `for..in` sees
it: the entries in key order, empty when the chain is `undefined`. -/
def configBuildArgs (cfg : DevcontainerConfig) : List (String × String) :=
  match cfg.build with
  | some b => b.args.getD []
  | none => []

/-- Spec-side restatement of §4.2 step 6: the exact build argument vector,
in the exact order the spec gives. -/
def specBuildArgs (env : Env) (imageName checkoutPath subFolder configDockerfile : String) :
    List String :=
  let folder := env.pathJoin2 checkoutPath subFolder
  let cfg := buildConfigOf env checkoutPath subFolder
  ["buildx", "build", "--tag", imageName ++ ":latest", "--cache-from",
    "type=registry,ref=" ++ imageName ++ ":latest", "--cache-to", "type=inline",
    "--output=type=docker"]
  ++ ((configBuildArgs cfg).flatMap fun p => ["--build-arg", p.1 ++ "=" ++ env.substituteValues p.2])
  ++ ["-f", env.pathJoin3 folder ".devcontainer" configDockerfile,
      env.pathJoin3 folder ".devcontainer" ((env.getContext cfg).getD "")]

/-- Spec-side restatement of §4.3 step 4: the exact run argument vector. -/
def specRunArgs (env : Env) (imageName checkoutPath subFolder command : String)
    (envs : Option (List String)) : List String :=
  let checkoutPathAbsolute := env.getAbsolutePath checkoutPath env.cwd
  let folder := env.pathJoin2 checkoutPathAbsolute subFolder
  let cfg := runConfigOf env checkoutPath subFolder
  let workspaceFolder := env.getWorkspaceFolder cfg folder
  ["run", "--mount", "type=bind,src=" ++ checkoutPathAbsolute ++ ",dst=" ++ workspaceFolder]
  ++ (substMounts env cfg).flatMap (mountContribution env)
  ++ ["--workdir", workspaceFolder, "--user", env.getRemoteUser cfg]
  ++ ((cfg.runArgs.getD []).map env.substituteValues)
  ++ ((envs.getD []).flatMap fun e => ["--env", e])
  ++ [imageName ++ ":latest", "bash", "-c", "sudo chown -R $(whoami) . && " ++ command]

/-- A concrete configuration used to instantiate the theorems. -/
def sampleConfig : DevcontainerConfig :=
  ⟨some ⟨some [("FOO", "bar")]⟩,
    some ["type=bind,source=/a,target=/b", "src=cache,target=/c"],
    some ["--privileged"]⟩

/-- A concrete set of collaborators used to instantiate the theorems. -/
def sampleEnv : Env :=
  ⟨fun _ => sampleConfig,
    fun _ => some "Dockerfile",
    fun _ => none,
    fun _ folder => folder,
    fun _ => "vscode",
    fun s => s,
    fun p _ => p,
    fun _ => true,
    "/cwd",
    fun a b => a ++ "/" ++ b,
    fun a b c => a ++ "/" ++ b ++ "/" ++ c⟩

/-- `sampleEnv` with a config that declares no Dockerfile. -/
def sampleEnvNoDockerfile : Env := { sampleEnv with getDockerfile := fun _ => none }

/-- A configuration whose first mount is a `bind` with a missing source. -/
def sampleConfigSkip : DevcontainerConfig :=
  ⟨none, some ["type=bind,source=/missing,target=/b", "src=cache,target=/c"], none⟩

/-- Collaborators under which only `/a` exists on the filesystem, so the
`bind` mount from `/missing` is skipped. -/
def sampleEnvSkip : Env :=
  { sampleEnv with
      loadFromFile := fun _ => sampleConfigSkip
      existsSync := fun s => decide (s = some "/a") }

/-- A runner that always exits with code 2. -/
def execTwo : ExecFunction := fun _ _ => 2

/-- A runner that always exits with code 0. -/
def execZero : ExecFunction := fun _ _ => 0

theorem applyOption_of_recognized (m : DockerMount) (option : String)
    (h : RecognizedKey option) :
    applyOption m option = .ok (optionUpdate option m) := by
  unfold RecognizedKey at h
  simp only [applyOption, optionUpdate, valueField, fieldOfKey, mountKey, optionValue,
    List.mem_cons, List.not_mem_nil, or_false] at h ⊢
  split_ifs with h1 h2 h3 h4 <;> simp_all [setField]

theorem applyOption_of_flag (m : DockerMount) (option : String)
    (h : mountKey option = "readonly" ∨ mountKey option = "ro") :
    applyOption m option = .ok m := by
  simp only [mountKey, List.headD_eq_head?_getD] at h
  rcases h with h | h <;> simp [applyOption, h]

theorem applyOption_of_unknown (m : DockerMount) (option : String)
    (h : ¬ RecognizedKey option) :
    applyOption m option =
      .error ("Unhandled mount option " ++ squote ++ mountKey option ++ squote) := by
  unfold RecognizedKey at h
  simp only [List.mem_cons, List.not_mem_nil, or_false, not_or] at h
  obtain ⟨h1, h2, h3, h4, h5, h6, h7, h8⟩ := h
  simp only [applyOption, mountKey] at h1 h2 h3 h4 h5 h6 h7 h8 ⊢
  split_ifs <;> simp_all [mountKey]

theorem optionUpdate_comm (x y : String) (m : DockerMount)
    (h : valueField x = none ∨ valueField y = none ∨ valueField x ≠ valueField y) :
    optionUpdate x (optionUpdate y m) = optionUpdate y (optionUpdate x m) := by
  unfold optionUpdate
  cases hx : valueField x with
  | none => rfl
  | some f =>
    cases hy : valueField y with
    | none => rfl
    | some g =>
      have hfg : f ≠ g := by
        rcases h with h | h | h
        · exact absurd hx (by simp [h])
        · exact absurd hy (by simp [h])
        · intro he
          exact h (by rw [hx, hy, he])
      cases f <;> cases g <;> simp [setField] <;> exact absurd rfl hfg

theorem parseMountLoop_append (m : DockerMount) (l₁ l₂ : List String) :
    parseMountLoop m (l₁ ++ l₂) =
      match parseMountLoop m l₁ with
      | .ok m₁ => parseMountLoop m₁ l₂
      | .error e => .error e := by
  induction l₁ generalizing m with
  | nil => rfl
  | cons x rest ih =>
    simp only [List.cons_append, parseMountLoop]
    cases applyOption m x with
    | error e => rfl
    | ok m₁ => exact ih m₁

theorem distinctFields_symm : ∀ {a b : String}, DistinctFields a b → DistinctFields b a := by
  intro a b h
  unfold DistinctFields at h ⊢
  tauto

theorem parseMountLoop_perm_ok {l₁ l₂ : List String} (hp : l₁.Perm l₂) :
    l₁.Pairwise DistinctFields →
      ∀ m r, parseMountLoop m l₁ = .ok r → parseMountLoop m l₂ = .ok r := by
  induction hp with
  | nil => exact fun _ _ _ h => h
  | cons x hp ih =>
    intro hnd m r h
    simp only [parseMountLoop] at h ⊢
    cases hx : applyOption m x with
    | error e => rw [hx] at h; exact absurd h (by simp)
    | ok m₁ =>
      rw [hx] at h
      exact ih (List.pairwise_cons.mp hnd).2 m₁ r h
  | swap x y l =>
    intro hnd m r h
    have hxy : DistinctFields y x := (List.pairwise_cons.mp hnd).1 x (by simp)
    simp only [parseMountLoop] at h ⊢
    by_cases hry : RecognizedKey y
    · rw [applyOption_of_recognized m y hry] at h
      dsimp only at h
      by_cases hrx : RecognizedKey x
      · rw [applyOption_of_recognized (optionUpdate y m) x hrx] at h
        dsimp only at h
        rw [applyOption_of_recognized m x hrx]
        dsimp only
        rw [applyOption_of_recognized (optionUpdate x m) y hry]
        dsimp only
        have hcomm := optionUpdate_comm y x m hxy
        exact hcomm ▸ h
      · rw [applyOption_of_unknown (optionUpdate y m) x hrx] at h
        exact absurd h (by simp)
    · rw [applyOption_of_unknown m y hry] at h
      exact absurd h (by simp)
  | trans hp₁ hp₂ ih₁ ih₂ =>
    intro hnd m r h
    exact ih₂ ((hp₁.pairwise_iff distinctFields_symm).mp hnd) m r (ih₁ hnd m r h)

theorem stringMk_data (s : String) : String.mk s.data = s := rfl

theorem splitListSep_of_not_mem (sep : Char) (l : List Char) (h : sep ∉ l) :
    splitListSep sep l = [l] := by
  induction l with
  | nil => rfl
  | cons c cs ih =>
    simp only [List.mem_cons, not_or] at h
    simp [splitListSep, if_neg (Ne.symm h.1), ih h.2]

theorem splitListSep_append (sep : Char) (l₁ l₂ : List Char) (h : sep ∉ l₁) :
    splitListSep sep (l₁ ++ sep :: l₂) = l₁ :: splitListSep sep l₂ := by
  induction l₁ with
  | nil => simp [splitListSep]
  | cons c cs ih =>
    simp only [List.mem_cons, not_or] at h
    simp [splitListSep, if_neg (Ne.symm h.1), ih h.2]

theorem data_append_append (a b c : String) :
    (a ++ b ++ c).data = a.data ++ b.data ++ c.data := by
  rw [String.data_append, String.data_append]

theorem data_comma : (",").data = [','] := rfl

theorem data_equals : ("=").data = ['='] := rfl

/-- Splitting a single well-formed `key=value` segment on `=`. -/
theorem jsSplit_keyValue (k v : String) (hk : '=' ∉ k.data) (hv : '=' ∉ v.data) :
    jsSplit (k ++ "=" ++ v) '=' = [k, v] := by
  have hdata : (k ++ "=" ++ v).data = k.data ++ '=' :: v.data := by
    rw [data_append_append, data_equals]
    simp
  rw [jsSplit, hdata, splitListSep_append '=' k.data v.data hk,
    splitListSep_of_not_mem '=' v.data hv]
  simp only [List.map_cons, List.map_nil, stringMk_data]

theorem mountKey_keyValue (k v : String) (hk : '=' ∉ k.data) (hv : '=' ∉ v.data) :
    mountKey (k ++ "=" ++ v) = k := by
  rw [mountKey, jsSplit_keyValue k v hk hv]
  rfl

theorem optionValue_keyValue (k v : String) (hk : '=' ∉ k.data) (hv : '=' ∉ v.data) :
    optionValue (k ++ "=" ++ v) = some v := by
  rw [optionValue, jsSplit_keyValue k v hk hv]
  rfl

theorem jsSplit_mountStringOf (pairs : List (String × String)) (hne : pairs ≠ [])
    (h : ∀ p ∈ pairs, ',' ∉ (p.1 ++ "=" ++ p.2).data) :
    jsSplit (mountStringOf pairs) ',' = pairs.map fun p => p.1 ++ "=" ++ p.2 := by
  induction pairs with
  | nil => exact absurd rfl hne
  | cons p rest ih =>
    cases rest with
    | nil =>
      have hms : mountStringOf [p] = p.1 ++ "=" ++ p.2 := rfl
      rw [hms, jsSplit,
        splitListSep_of_not_mem ',' (p.1 ++ "=" ++ p.2).data (h p (by simp))]
      simp only [List.map_cons, List.map_nil, stringMk_data]
    | cons q rest₂ =>
      have hms : mountStringOf (p :: q :: rest₂) =
          p.1 ++ "=" ++ p.2 ++ "," ++ mountStringOf (q :: rest₂) := rfl
      have hdata : (p.1 ++ "=" ++ p.2 ++ "," ++ mountStringOf (q :: rest₂)).data =
          (p.1 ++ "=" ++ p.2).data ++ ',' :: (mountStringOf (q :: rest₂)).data := by
        rw [data_append_append, data_comma]
        simp
      rw [hms, jsSplit, hdata,
        splitListSep_append ',' _ _ (h p (by simp))]
      simp only [List.map_cons, stringMk_data]
      rw [← jsSplit, ih (by simp) fun r hr => h r (List.mem_cons_of_mem p hr)]
      simp only [List.map_cons]

theorem getField_setField (f g : MountField) (v : Option String) (m : DockerMount) :
    getField f (setField g v m) = if g = f then v else getField f m := by
  cases f <;> cases g <;> simp [getField, setField]

theorem getField_assignAll (f : MountField) (pairs : List (String × String)) :
    ∀ m, getField f (assignAll pairs m) = lastValueD f (getField f m) pairs := by
  induction pairs with
  | nil => intro m; rfl
  | cons p rest ih =>
    intro m
    rw [assignAll, List.foldl_cons, lastValueD, List.foldl_cons, ← assignAll, ← lastValueD, ih]
    congr 1
    cases hf : fieldOfKey p.1 with
    | none => simp
    | some g => simp [getField_setField]

theorem parseMountLoop_wellformed (pairs : List (String × String))
    (hk : ∀ p ∈ pairs,
      p.1 ∈ (["type", "src", "source", "dst", "destination", "target"] : List String))
    (hveq : ∀ p ∈ pairs, '=' ∉ p.2.data) :
    ∀ m, parseMountLoop m (pairs.map fun p => p.1 ++ "=" ++ p.2) = .ok (assignAll pairs m) := by
  induction pairs with
  | nil => intro m; rfl
  | cons p rest ih =>
    intro m
    have hkey := hk p (by simp)
    have hkeq : '=' ∉ p.1.data := by
      simp only [List.mem_cons, List.not_mem_nil, or_false] at hkey
      rcases hkey with h | h | h | h | h | h <;> rw [h] <;> decide
    have hveqp : '=' ∉ p.2.data := hveq p (by simp)
    have hrec : RecognizedKey (p.1 ++ "=" ++ p.2) := by
      unfold RecognizedKey
      rw [mountKey_keyValue p.1 p.2 hkeq hveqp]
      simp only [List.mem_cons, List.not_mem_nil, or_false] at hkey ⊢
      tauto
    simp only [List.map_cons, parseMountLoop]
    rw [applyOption_of_recognized m _ hrec]
    dsimp only
    rw [ih (fun q hq => hk q (List.mem_cons_of_mem p hq))
      (fun q hq => hveq q (List.mem_cons_of_mem p hq))]
    have hupd : optionUpdate (p.1 ++ "=" ++ p.2) m =
        match fieldOfKey p.1 with
        | some f => setField f (some p.2) m
        | none => m := by
      unfold optionUpdate valueField
      rw [mountKey_keyValue p.1 p.2 hkeq hveqp, optionValue_keyValue p.1 p.2 hkeq hveqp]
      cases fieldOfKey p.1 <;> rfl
    rw [hupd]
    rfl

theorem parseMountLoop_error_first (pre : List String) (bad : String) (post : List String)
    (hpre : ∀ seg ∈ pre, RecognizedKey seg) (hbad : ¬ RecognizedKey bad) :
    ∀ m, parseMountLoop m (pre ++ bad :: post) =
      .error ("Unhandled mount option " ++ squote ++ mountKey bad ++ squote) := by
  induction pre with
  | nil =>
    intro m
    simp only [List.nil_append, parseMountLoop]
    rw [applyOption_of_unknown m bad hbad]
  | cons x rest ih =>
    intro m
    simp only [List.cons_append, parseMountLoop]
    rw [applyOption_of_recognized m x (hpre x (by simp))]
    dsimp only
    exact ih (fun seg hs => hpre seg (List.mem_cons_of_mem x hs)) _

theorem scanMounts_ok (env : Env) (ms : List String)
    (h : ∀ m ∈ ms, (parseMount m).isOk = true) :
    scanMounts env ms =
      ⟨ms.flatMap (mountContribution env), ms.filterMap (skipLog env), none⟩ := by
  induction ms with
  | nil => rfl
  | cons m rest ih =>
    have hm := h m (by simp)
    have ihr := ih fun q hq => h q (List.mem_cons_of_mem m hq)
    simp only [scanMounts]
    cases hp : parseMount m with
    | error e =>
      rw [hp] at hm
      simp [Except.isOk, Except.toBool] at hm
    | ok mount =>
      dsimp only
      by_cases hs : mount.type = some "bind" ∧ env.existsSync mount.source = false
      · have hskip : skipsMount env m = true := by
          rw [skipsMount, hp]
          dsimp only
          rw [if_pos hs]
        rw [if_pos hs, ihr]
        simp [List.flatMap_cons, List.filterMap_cons, mountContribution, skipLog, hskip]
      · have hskip : skipsMount env m = false := by
          rw [skipsMount, hp]
          dsimp only
          rw [if_neg hs]
        rw [if_neg hs, ihr]
        simp [List.flatMap_cons, List.filterMap_cons, mountContribution, skipLog, hskip]

theorem buildImage_unfold (env : Env) (exec : ExecFunction)
    (imageName checkoutPath subFolder : String) (d : String)
    (hd : env.getDockerfile (buildConfigOf env checkoutPath subFolder) = some d)
    (hne : d ≠ "") :
    buildImage env exec imageName checkoutPath subFolder =
      ⟨[⟨"docker", specBuildArgs env imageName checkoutPath subFolder d⟩], [],
        if exec "docker" (specBuildArgs env imageName checkoutPath subFolder d) ≠ 0 then
          .error ("build failed with " ++
            toString (exec "docker" (specBuildArgs env imageName checkoutPath subFolder d)))
        else .ok ()⟩ := by
  rw [buildImage]
  rw [show env.loadFromFile
      (env.pathJoin2 (env.pathJoin2 checkoutPath subFolder) ".devcontainer/devcontainer.json") =
      buildConfigOf env checkoutPath subFolder from rfl]
  rw [hd]
  split
  · rename_i heq
    exact absurd heq (by simp)
  · rename_i heq
    exact absurd (Option.some.inj heq) hne
  · rename_i cd heq
    cases Option.some.inj heq
    rfl

theorem runContainer_unfold (env : Env) (exec : ExecFunction)
    (imageName checkoutPath subFolder command : String)
    (envs mounts : Option (List String))
    (hparse : ∀ m ∈ substMounts env (runConfigOf env checkoutPath subFolder),
      (parseMount m).isOk = true) :
    runContainer env exec imageName checkoutPath subFolder command envs mounts =
      ⟨[⟨"docker", specRunArgs env imageName checkoutPath subFolder command envs⟩],
        (substMounts env (runConfigOf env checkoutPath subFolder)).filterMap (skipLog env),
        if exec "docker" (specRunArgs env imageName checkoutPath subFolder command envs) ≠ 0 then
          .error ("run failed with " ++
            toString (exec "docker" (specRunArgs env imageName checkoutPath subFolder command envs)))
        else .ok ()⟩ := by
  rw [runContainer]
  rw [show env.loadFromFile
      (env.pathJoin2 (env.pathJoin2 (env.getAbsolutePath checkoutPath env.cwd) subFolder)
        ".devcontainer/devcontainer.json") =
      runConfigOf env checkoutPath subFolder from rfl]
  rw [show ((runConfigOf env checkoutPath subFolder).mounts.getD []).map env.substituteValues =
      substMounts env (runConfigOf env checkoutPath subFolder) from rfl]
  rw [scanMounts_ok env _ hparse]
  rfl

/-- **C1.** For every mount string consisting of comma-separated
`key=value` segments whose keys are recognized value-bearing keys
(`type`, `src`/`source`, `dst`/`destination`/`target`) and whose values
contain no `=` and no `,`, `parseMount` succeeds and returns the record
in which each of `type`, `source`, `target` holds the corresponding
value (the last one, should several segments address the same field),
and every field whose key did not appear holds the empty string — a
present `some ""`, not the `none` that models JS `undefined`. -/
theorem parseMount_wellformed_segments (pairs : List (String × String)) (hne : pairs ≠ [])
    (hk : ∀ p ∈ pairs,
      p.1 ∈ (["type", "src", "source", "dst", "destination", "target"] : List String))
    (hv : ∀ p ∈ pairs, '=' ∉ p.2.data ∧ ',' ∉ p.2.data) :
    parseMount (mountStringOf pairs) =
      .ok ⟨lastValue .type pairs, lastValue .source pairs, lastValue .target pairs⟩ := by
  have hkdata : ∀ p ∈ pairs, '=' ∉ p.1.data ∧ ',' ∉ p.1.data := by
    intro p hp
    have hm := hk p hp
    simp only [List.mem_cons, List.not_mem_nil, or_false] at hm
    rcases hm with h | h | h | h | h | h <;> rw [h] <;> exact ⟨by decide, by decide⟩
  have hseg : ∀ p ∈ pairs, ',' ∉ (p.1 ++ "=" ++ p.2).data := by
    intro p hp
    rw [data_append_append, data_equals]
    simp only [List.mem_append, List.mem_cons, List.not_mem_nil, or_false, not_or]
    exact ⟨⟨(hkdata p hp).2, by decide⟩, (hv p hp).2⟩
  rw [parseMount, jsSplit_mountStringOf pairs hne hseg,
    parseMountLoop_wellformed pairs hk fun p hp => (hv p hp).1]
  congr 1
  exact DockerMount.ext (getField_assignAll .type pairs ⟨some "", some "", some ""⟩)
    (getField_assignAll .source pairs ⟨some "", some "", some ""⟩)
    (getField_assignAll .target pairs ⟨some "", some "", some ""⟩)

/-- Witness for C1 at the spec's two examples: for
`"type=bind,source=/a,target=/b"` all three fields are set, and for
`"src=home-cache,target=/home/vscode/.cache"` the absent `type` comes
back as the empty string. -/
theorem parseMount_wellformed_segments_witness :
    (([("type", "bind"), ("source", "/a"), ("target", "/b")] : List (String × String)) ≠ []
      ∧ mountStringOf [("type", "bind"), ("source", "/a"), ("target", "/b")] =
          "type=bind,source=/a,target=/b"
      ∧ parseMount (mountStringOf [("type", "bind"), ("source", "/a"), ("target", "/b")]) =
          .ok ⟨lastValue .type [("type", "bind"), ("source", "/a"), ("target", "/b")],
            lastValue .source [("type", "bind"), ("source", "/a"), ("target", "/b")],
            lastValue .target [("type", "bind"), ("source", "/a"), ("target", "/b")]⟩
      ∧ parseMount "type=bind,source=/a,target=/b" =
          .ok ⟨some "bind", some "/a", some "/b"⟩)
    ∧ (mountStringOf [("src", "home-cache"), ("target", "/home/vscode/.cache")] =
          "src=home-cache,target=/home/vscode/.cache"
      ∧ parseMount (mountStringOf [("src", "home-cache"), ("target", "/home/vscode/.cache")]) =
          .ok ⟨lastValue .type [("src", "home-cache"), ("target", "/home/vscode/.cache")],
            lastValue .source [("src", "home-cache"), ("target", "/home/vscode/.cache")],
            lastValue .target [("src", "home-cache"), ("target", "/home/vscode/.cache")]⟩
      ∧ parseMount "src=home-cache,target=/home/vscode/.cache" =
          .ok ⟨some "", some "home-cache", some "/home/vscode/.cache"⟩) :=
  ⟨⟨by decide, by decide,
      parseMount_wellformed_segments [("type", "bind"), ("source", "/a"), ("target", "/b")]
        (by decide) (by decide) (by decide),
      by decide⟩,
    ⟨by decide,
      parseMount_wellformed_segments [("src", "home-cache"), ("target", "/home/vscode/.cache")]
        (by decide) (by decide) (by decide),
      by decide⟩⟩

/-- **C2.** For every mount string whose comma-split decomposes as
recognized-key segments followed by a first segment with an unrecognized
key, `parseMount` throws `Unhandled mount option '<key>'` naming that
segment's key — whatever segments follow: the loop stops there, and no
(partial) `DockerMount` is produced. -/
theorem parseMount_unknown_key_fails (s : String) (pre : List String) (bad : String)
    (post : List String)
    (hsplit : jsSplit s ',' = pre ++ bad :: post)
    (hpre : ∀ seg ∈ pre, RecognizedKey seg)
    (hbad : ¬ RecognizedKey bad) :
    parseMount s = .error ("Unhandled mount option " ++ squote ++ mountKey bad ++ squote) := by
  rw [parseMount, hsplit]
  exact parseMountLoop_error_first pre bad post hpre hbad _

/-- Witness for C2 at the spec's example: `"type=bind,unknown=x"` fails
with the error naming `unknown`. -/
theorem parseMount_unknown_key_fails_witness :
    (jsSplit "type=bind,unknown=x" ',' = ["type=bind"] ++ "unknown=x" :: []
      ∧ (∀ seg ∈ (["type=bind"] : List String), RecognizedKey seg)
      ∧ ¬ RecognizedKey "unknown=x"
      ∧ mountKey "unknown=x" = "unknown")
    ∧ parseMount "type=bind,unknown=x" =
        .error ("Unhandled mount option " ++ squote ++ mountKey "unknown=x" ++ squote) :=
  ⟨⟨by decide, by decide, by decide, by decide⟩,
    parseMount_unknown_key_fails "type=bind,unknown=x" ["type=bind"] "unknown=x" []
      (by decide) (by decide) (by decide)⟩

/-- **C3.** When every substituted config mount parses, `runContainer`:
prints exactly one skip diagnostic per config mount that parses to type
`bind` with a source failing the existence check (`skipLog`); passes the
runner an argument vector in which each such mount contributes nothing
and every other config mount contributes `--mount` plus its raw
substituted string (`mountContribution`, inside `specRunArgs`); and
succeeds exactly when the runner exits 0 — a missing bind source alone
never makes it fail. -/
theorem runContainer_skips_missing_bind_sources (env : Env) (exec : ExecFunction)
    (imageName checkoutPath subFolder command : String) (envs mounts : Option (List String))
    (hparse : ∀ m ∈ substMounts env (runConfigOf env checkoutPath subFolder),
      (parseMount m).isOk = true) :
    (runContainer env exec imageName checkoutPath subFolder command envs mounts).logs =
        (substMounts env (runConfigOf env checkoutPath subFolder)).filterMap (skipLog env)
    ∧ (runContainer env exec imageName checkoutPath subFolder command envs mounts).calls =
        [⟨"docker", specRunArgs env imageName checkoutPath subFolder command envs⟩]
    ∧ ((runContainer env exec imageName checkoutPath subFolder command envs mounts).result =
          .ok ()
        ↔ exec "docker" (specRunArgs env imageName checkoutPath subFolder command envs) = 0) := by
  rw [runContainer_unfold env exec imageName checkoutPath subFolder command envs mounts hparse]
  refine ⟨rfl, rfl, ?_⟩
  by_cases h : exec "docker" (specRunArgs env imageName checkoutPath subFolder command envs) = 0
  · simp [h]
  · simp [h]

/-- Witness for C3: under `sampleEnvSkip` the first config mount
(`bind` from the non-existent `/missing`) is dropped with the diagnostic
while the second is passed through, and the call succeeds. -/
theorem runContainer_skips_missing_bind_sources_witness :
    (∀ m ∈ substMounts sampleEnvSkip (runConfigOf sampleEnvSkip "/repo" "sub"),
      (parseMount m).isOk = true)
    ∧ ((runContainer sampleEnvSkip execZero "img" "/repo" "sub" "make test" none none).logs =
          (substMounts sampleEnvSkip (runConfigOf sampleEnvSkip "/repo" "sub")).filterMap
            (skipLog sampleEnvSkip)
      ∧ (runContainer sampleEnvSkip execZero "img" "/repo" "sub" "make test" none none).calls =
          [⟨"docker", specRunArgs sampleEnvSkip "img" "/repo" "sub" "make test" none⟩]
      ∧ ((runContainer sampleEnvSkip execZero "img" "/repo" "sub" "make test" none none).result =
            .ok ()
          ↔ execZero "docker" (specRunArgs sampleEnvSkip "img" "/repo" "sub" "make test" none) = 0))
    ∧ (substMounts sampleEnvSkip (runConfigOf sampleEnvSkip "/repo" "sub")).filterMap
        (skipLog sampleEnvSkip) =
        ["Skipping mount as source does not exist: " ++ squote ++
          "type=bind,source=/missing,target=/b" ++ squote]
    ∧ (substMounts sampleEnvSkip (runConfigOf sampleEnvSkip "/repo" "sub")).flatMap
        (mountContribution sampleEnvSkip) = ["--mount", "src=cache,target=/c"] :=
  ⟨by decide,
    runContainer_skips_missing_bind_sources sampleEnvSkip execZero "img" "/repo" "sub"
      "make test" none none (by decide),
    by decide, by decide⟩

/-- **C4.** Each orchestrator invokes the runner on exactly one
command, and translates its exit code uniformly: a non-zero code becomes
a thrown error whose message ends in that code
(`build failed with <code>` / `run failed with <code>` /
`push failed with <code>`), a zero code a normal return.  For
`buildImage` the config must carry a Dockerfile and for `runContainer`
every config mount must parse, otherwise the runner is not reached. -/
theorem orchestrators_report_exit_code (env : Env) (exec : ExecFunction)
    (imageName checkoutPath subFolder command : String) (envs mounts : Option (List String))
    (d : String)
    (hd : env.getDockerfile (buildConfigOf env checkoutPath subFolder) = some d)
    (hdne : d ≠ "")
    (hparse : ∀ m ∈ substMounts env (runConfigOf env checkoutPath subFolder),
      (parseMount m).isOk = true) :
    (∃ args, (buildImage env exec imageName checkoutPath subFolder).calls = [⟨"docker", args⟩]
      ∧ (exec "docker" args ≠ 0 →
          (buildImage env exec imageName checkoutPath subFolder).result =
            .error ("build failed with " ++ toString (exec "docker" args)))
      ∧ (exec "docker" args = 0 →
          (buildImage env exec imageName checkoutPath subFolder).result = .ok ()))
    ∧ (∃ args,
        (runContainer env exec imageName checkoutPath subFolder command envs mounts).calls =
          [⟨"docker", args⟩]
      ∧ (exec "docker" args ≠ 0 →
          (runContainer env exec imageName checkoutPath subFolder command envs mounts).result =
            .error ("run failed with " ++ toString (exec "docker" args)))
      ∧ (exec "docker" args = 0 →
          (runContainer env exec imageName checkoutPath subFolder command envs mounts).result =
            .ok ()))
    ∧ (∃ args, (pushImage exec imageName).calls = [⟨"docker", args⟩]
      ∧ (exec "docker" args ≠ 0 →
          (pushImage exec imageName).result =
            .error ("push failed with " ++ toString (exec "docker" args)))
      ∧ (exec "docker" args = 0 → (pushImage exec imageName).result = .ok ())) := by
  have hb := buildImage_unfold env exec imageName checkoutPath subFolder d hd hdne
  have hr := runContainer_unfold env exec imageName checkoutPath subFolder command envs mounts
    hparse
  refine ⟨⟨specBuildArgs env imageName checkoutPath subFolder d, by rw [hb], ?_, ?_⟩,
    ⟨specRunArgs env imageName checkoutPath subFolder command envs, by rw [hr], ?_, ?_⟩,
    ⟨["push", imageName ++ ":latest"], rfl, ?_, ?_⟩⟩
  · intro h
    rw [hb]
    simp [h]
  · intro h
    rw [hb]
    simp [h]
  · intro h
    rw [hr]
    simp [h]
  · intro h
    rw [hr]
    simp [h]
  · intro h
    simp [pushImage, h]
  · intro h
    simp [pushImage, h]

/-- Witness for C4 under `sampleEnv` with the runner exiting 2. -/
theorem orchestrators_report_exit_code_witness :
    ((∃ args, (buildImage sampleEnv execTwo "img" "/repo" "sub").calls = [⟨"docker", args⟩]
      ∧ (execTwo "docker" args ≠ 0 →
          (buildImage sampleEnv execTwo "img" "/repo" "sub").result =
            .error ("build failed with " ++ toString (execTwo "docker" args)))
      ∧ (execTwo "docker" args = 0 →
          (buildImage sampleEnv execTwo "img" "/repo" "sub").result = .ok ()))
    ∧ (∃ args,
        (runContainer sampleEnv execTwo "img" "/repo" "sub" "make test" none none).calls =
          [⟨"docker", args⟩]
      ∧ (execTwo "docker" args ≠ 0 →
          (runContainer sampleEnv execTwo "img" "/repo" "sub" "make test" none none).result =
            .error ("run failed with " ++ toString (execTwo "docker" args)))
      ∧ (execTwo "docker" args = 0 →
          (runContainer sampleEnv execTwo "img" "/repo" "sub" "make test" none none).result =
            .ok ()))
    ∧ (∃ args, (pushImage execTwo "img").calls = [⟨"docker", args⟩]
      ∧ (execTwo "docker" args ≠ 0 →
          (pushImage execTwo "img").result =
            .error ("push failed with " ++ toString (execTwo "docker" args)))
      ∧ (execTwo "docker" args = 0 → (pushImage execTwo "img").result = .ok ())))
    ∧ (pushImage execTwo "img").result = .error "push failed with 2" :=
  ⟨orchestrators_report_exit_code sampleEnv execTwo "img" "/repo" "sub" "make test" none none
      "Dockerfile" (by decide) (by decide) (by decide),
    by decide⟩

/-- **C5.** With a Dockerfile configured, the argument vector
`buildImage` hands the runner is exactly `specBuildArgs`: the buildx
build subcommand tokens, `--tag <image>:latest`,
`--cache-from type=registry,ref=<image>:latest`,
`--cache-to type=inline`, `--output=type=docker`, one
`--build-arg <name>=<substituted value>` pair per build-arg entry in the
config's key order, `-f <dockerfilePath>`, and the context path last. -/
theorem buildImage_argument_order (env : Env) (exec : ExecFunction)
    (imageName checkoutPath subFolder d : String)
    (hd : env.getDockerfile (buildConfigOf env checkoutPath subFolder) = some d)
    (hdne : d ≠ "") :
    (buildImage env exec imageName checkoutPath subFolder).calls =
      [⟨"docker", specBuildArgs env imageName checkoutPath subFolder d⟩] := by
  rw [buildImage_unfold env exec imageName checkoutPath subFolder d hd hdne]

/-- Witness for C5 under `sampleEnv`, with the vector fully evaluated. -/
theorem buildImage_argument_order_witness :
    (sampleEnv.getDockerfile (buildConfigOf sampleEnv "/repo" "sub") = some "Dockerfile"
      ∧ "Dockerfile" ≠ "")
    ∧ (buildImage sampleEnv execZero "img" "/repo" "sub").calls =
        [⟨"docker", specBuildArgs sampleEnv "img" "/repo" "sub" "Dockerfile"⟩]
    ∧ specBuildArgs sampleEnv "img" "/repo" "sub" "Dockerfile" =
        ["buildx", "build", "--tag", "img:latest", "--cache-from",
          "type=registry,ref=img:latest", "--cache-to", "type=inline", "--output=type=docker",
          "--build-arg", "FOO=bar", "-f", "/repo/sub/.devcontainer/Dockerfile",
          "/repo/sub/.devcontainer/"] :=
  ⟨⟨by decide, by decide⟩,
    buildImage_argument_order sampleEnv execZero "img" "/repo" "sub" "Dockerfile"
      (by decide) (by decide),
    by decide⟩

/-- **C6.** When the loaded config carries no Dockerfile (JS-falsy:
absent or empty), `buildImage` makes no runner invocation at all and
throws the descriptive Dockerfile-only error. -/
theorem buildImage_requires_dockerfile (env : Env) (exec : ExecFunction)
    (imageName checkoutPath subFolder : String)
    (h : env.getDockerfile (buildConfigOf env checkoutPath subFolder) = none ∨
         env.getDockerfile (buildConfigOf env checkoutPath subFolder) = some "") :
    buildImage env exec imageName checkoutPath subFolder =
      ⟨[], [], .error buildNoDockerfileMsg⟩ := by
  rw [buildImage]
  rw [show env.loadFromFile
      (env.pathJoin2 (env.pathJoin2 checkoutPath subFolder) ".devcontainer/devcontainer.json") =
      buildConfigOf env checkoutPath subFolder from rfl]
  rcases h with h | h <;> rw [h] <;> rfl

/-- Witness for C6 under `sampleEnvNoDockerfile`. -/
theorem buildImage_requires_dockerfile_witness :
    (sampleEnvNoDockerfile.getDockerfile (buildConfigOf sampleEnvNoDockerfile "/repo" "sub") =
        none
      ∨ sampleEnvNoDockerfile.getDockerfile (buildConfigOf sampleEnvNoDockerfile "/repo" "sub") =
        some "")
    ∧ buildImage sampleEnvNoDockerfile execZero "img" "/repo" "sub" =
        ⟨[], [], .error buildNoDockerfileMsg⟩ :=
  ⟨by decide,
    buildImage_requires_dockerfile sampleEnvNoDockerfile execZero "img" "/repo" "sub"
      (by decide)⟩

/-- **C7.** The `mounts` parameter of `runContainer` has no effect: two
invocations differing only in it have identical outcomes — in
particular identical runner command and argument vector.  (Only the
loaded config's `mounts` field is consumed.) -/
theorem runContainer_ignores_mounts_argument (env : Env) (exec : ExecFunction)
    (imageName checkoutPath subFolder command : String) (envs : Option (List String))
    (mounts₁ mounts₂ : Option (List String)) :
    runContainer env exec imageName checkoutPath subFolder command envs mounts₁ =
      runContainer env exec imageName checkoutPath subFolder command envs mounts₂ := rfl

/-- **C8.** `parseMount` is insensitive to segment order: when the
comma-split segment lists of two mount strings are permutations of each
other and no two segments address the same value-bearing field
(`DistinctFields`, ruling out repeated or aliased keys), the two parses
accept exactly the same `DockerMount`. -/
theorem parseMount_order_insensitive (s₁ s₂ : String) (m : DockerMount)
    (hperm : (jsSplit s₁ ',').Perm (jsSplit s₂ ','))
    (hnd : (jsSplit s₁ ',').Pairwise DistinctFields) :
    parseMount s₁ = .ok m ↔ parseMount s₂ = .ok m := by
  constructor
  · exact fun h => parseMountLoop_perm_ok hperm hnd ⟨some "", some "", some ""⟩ m h
  · exact fun h => parseMountLoop_perm_ok hperm.symm
      ((hperm.pairwise_iff distinctFields_symm).mp hnd) ⟨some "", some "", some ""⟩ m h

/-- Witness for C8 at the spec's example pair. -/
theorem parseMount_order_insensitive_witness :
    ((jsSplit "target=/b,source=/a" ',').Perm (jsSplit "source=/a,target=/b" ',')
      ∧ (jsSplit "target=/b,source=/a" ',').Pairwise DistinctFields)
    ∧ (parseMount "target=/b,source=/a" = .ok ⟨some "", some "/a", some "/b"⟩
        ↔ parseMount "source=/a,target=/b" = .ok ⟨some "", some "/a", some "/b"⟩)
    ∧ parseMount "target=/b,source=/a" = .ok ⟨some "", some "/a", some "/b"⟩
    ∧ parseMount "source=/a,target=/b" = .ok ⟨some "", some "/a", some "/b"⟩ :=
  ⟨⟨by decide, by decide⟩,
    parseMount_order_insensitive "target=/b,source=/a" "source=/a,target=/b"
      ⟨some "", some "/a", some "/b"⟩ (by decide) (by decide),
    by decide, by decide⟩

/-- **C9.** A segment whose key is `readonly` or `ro` (with or without
an `=value` part) never affects the result: parsing a mount string is
the same as parsing it with that segment removed. -/
theorem parseMount_readonly_segment_irrelevant (s s' : String) (pre post : List String)
    (seg : String)
    (hkey : mountKey seg = "readonly" ∨ mountKey seg = "ro")
    (hs : jsSplit s ',' = pre ++ seg :: post)
    (hs' : jsSplit s' ',' = pre ++ post) :
    parseMount s = parseMount s' := by
  rw [parseMount, parseMount, hs, hs', parseMountLoop_append, parseMountLoop_append]
  cases hp : parseMountLoop ⟨some "", some "", some ""⟩ pre with
  | error e => rfl
  | ok m =>
    dsimp only
    show parseMountLoop m (seg :: post) = parseMountLoop m post
    simp only [parseMountLoop]
    rw [applyOption_of_flag m seg hkey]

/-- Witness for C9: dropping a bare `readonly` segment. -/
theorem parseMount_readonly_segment_irrelevant_witness :
    ((mountKey "readonly" = "readonly" ∨ mountKey "readonly" = "ro")
      ∧ jsSplit "type=bind,readonly,target=/b" ',' =
          ["type=bind"] ++ "readonly" :: ["target=/b"]
      ∧ jsSplit "type=bind,target=/b" ',' = ["type=bind"] ++ ["target=/b"])
    ∧ parseMount "type=bind,readonly,target=/b" = parseMount "type=bind,target=/b"
    ∧ parseMount "type=bind,readonly,target=/b" = .ok ⟨some "bind", some "", some "/b"⟩ :=
  ⟨⟨by decide, by decide, by decide⟩,
    parseMount_readonly_segment_irrelevant "type=bind,readonly,target=/b" "type=bind,target=/b"
      ["type=bind"] ["target=/b"] "readonly" (by decide) (by decide) (by decide),
    by decide⟩

/-- **C10.** `isDockerBuildXInstalled` makes exactly one runner
invocation, `docker buildx --help`, and returns `true` exactly when its
exit code is 0. -/
theorem isDockerBuildXInstalled_behaviour (exec : ExecFunction) :
    (isDockerBuildXInstalled exec).1 = [⟨"docker", ["buildx", "--help"]⟩]
    ∧ ((isDockerBuildXInstalled exec).2 = true ↔ exec "docker" ["buildx", "--help"] = 0) := by
  refine ⟨rfl, ?_⟩
  simp [isDockerBuildXInstalled]
